import Mathlib

/-!
Verification development for the screen-grounded-translator frame compositor and
camera-motion engine.  The numeric computations of the source (TypeScript, IEEE
doubles) are embedded over the exact rationals `ℚ`; the transcendental library
calls (`Math.sqrt`, `Math.cos`, `Math.exp`) are abstracted into a `TransOps`
record so that universal theorems hold for every interpretation of those
functions, while concrete executions instantiate them with rational functions
that agree with the real ones on every argument actually evaluated (perfect
squares for `sqrt`, the rational points of `cos (r·π)` for `cosPi`).
-/

namespace SGT

set_option maxRecDepth 2000000

/-- Abstract interface for the transcendental library functions used by the
source: `sqrt x` models `Math.sqrt(x)`, `cosPi r` models `Math.cos(r * Math.PI)`
(the source only ever calls `Math.cos` on arguments of the form `r·π`), and
`exp x` models `Math.exp(x)`.  Universal theorems quantify over all such
interpretations. -/
structure TransOps where
  sqrt : ℚ → ℚ
  cosPi : ℚ → ℚ
  exp : ℚ → ℚ

/-- Newton (Heron) iteration for the integer square root, with enough fuel to
converge from the initial guess; stops as soon as the iteration no longer
decreases, so only `O(log n)` steps are ever taken. -/
def heron (n : ℕ) : ℕ → ℕ → ℕ
  | 0, g => g
  | fuel + 1, g =>
    let g' := (g + n / g) / 2
    if g' < g then heron n fuel g' else g

/-- Integer square root (`⌊√n⌋`) by Newton iteration. -/
def isqrt (n : ℕ) : ℕ := if n ≤ 1 then n else heron n n (n / 2 + 1)

/-- Rational square root: exact (equal to the real square root) whenever the
numerator and denominator of the reduced input are perfect squares — which is
the case for every argument evaluated in the concrete runs below, since those
runs only move the pointer along a single axis, so every `Math.sqrt` argument
is the square of a rational. -/
def ratSqrt (q : ℚ) : ℚ := (isqrt q.num.toNat : ℚ) / (isqrt q.den : ℚ)

/-- Rational model of `r ↦ cos (r·π)`: exact at `r ∈ {0, 1/3, 1/2, 2/3, 1}`,
which by Niven's theorem are the only rational points of `cos` at rational
multiples of `π` in `[0,1]`.  The concrete runs below only evaluate it at `0`. -/
def ratCosPi (q : ℚ) : ℚ :=
  if q = 0 then 1
  else if q = 1/3 then 1/2
  else if q = 1/2 then 0
  else if q = 2/3 then -1/2
  else if q = 1 then -1
  else 0

/-- Positive rational stand-in for `Math.exp`; the theorems below never depend
on its values (the Gaussian weights it produces only influence smoothed
coordinates, and the facts proved about the smoother are value-independent). -/
def ratExp (q : ℚ) : ℚ := if q < 0 then 1 / (1 - q) else 1 + q

/-- Concrete transcendental interpretation used for the closed concrete runs. -/
def exactOps : TransOps := ⟨ratSqrt, ratCosPi, ratExp⟩

/-- One recorded pointer sample (`MousePosition` in `@/types/video`). -/
structure MousePosition where
  timestamp : ℚ
  x : ℚ
  y : ℚ
  isClicked : Bool
  cursor_type : Option String
deriving DecidableEq

/-- Default sample used only to totalize list indexing; every indexing site in
the source is guarded so the default is never observed. -/
def mpDefault : MousePosition := ⟨0, 0, 0, false, none⟩

/-- Easing tag of a `ZoomKeyframe`. -/
inductive EasingType where
  | linear
  | easeOut
deriving DecidableEq

/-- A user-authored camera pin (`ZoomKeyframe` in `@/types/video`); also the
shape of a resolved camera state returned by the compositor. -/
structure ZoomKeyframe where
  time : ℚ
  duration : ℚ
  zoomFactor : ℚ
  positionX : ℚ
  positionY : ℚ
  easingType : EasingType
deriving DecidableEq

/-- One entry of a precomputed dense camera path. -/
structure PathPoint where
  time : ℚ
  x : ℚ
  y : ℚ
  zoom : ℚ
deriving DecidableEq

/-- One zoom-influence point of a segment. -/
structure InfluencePoint where
  time : ℚ
  value : ℚ
deriving DecidableEq

/-- Normalized crop rectangle of a segment. -/
structure CropRect where
  x : ℚ
  y : ℚ
  width : ℚ
  height : ℚ
deriving DecidableEq

/-- The edit unit (`VideoSegment` in `@/types/video`), restricted to the fields
the compositor and path generator read.  An absent `smoothMotionPath` is
modelled by the empty list (the source guards with
`segment.smoothMotionPath && segment.smoothMotionPath.length > 0`). -/
structure VideoSegment where
  trimStart : ℚ
  trimEnd : ℚ
  crop : CropRect
  zoomKeyframes : List ZoomKeyframe
  zoomInfluencePoints : List InfluencePoint
  smoothMotionPath : List PathPoint
deriving DecidableEq

/-- `Number(q.toFixed(3))`: round to the nearest thousandth, ties away from
zero for the positive values arising here (JS `toFixed` rounds half up). -/
def toFixed3 (q : ℚ) : ℚ := (⌊q * 1000 + 1/2⌋ : ℚ) / 1000

/-- `Number(q.toFixed(1))`: round to the nearest tenth, half up. -/
def toFixed1 (q : ℚ) : ℚ := (⌊q * 10 + 1/2⌋ : ℚ) / 10

/-! ## Camera Path Generator (`AutoZoomGenerator`, src/unnamed/part_002)

Physics constants (the `PHYSICS` object): TENSION 25, FRICTION 25, MASS 3,
LOOK_AHEAD 0.2, MAX_VELOCITY_ZOOM_PENALTY 1000, BASE_ZOOM 1.4, MIN_ZOOM 1,
MAX_ZOOM 2; simulation step `dt = 1/60`. -/

/-- `AutoZoomGenerator.sample`: linear interpolation between the two bracketing
samples, clamped to the first/last sample outside the recorded range.  The
`idx = 0` fallback is unreachable under the `t ≤ first` guard for sorted data. -/
def sample (data : List MousePosition) (t : ℚ) : ℚ × ℚ :=
  let hd := data.headD mpDefault
  let lst := data.getLastD mpDefault
  if t ≤ hd.timestamp then (hd.x, hd.y)
  else if lst.timestamp ≤ t then (lst.x, lst.y)
  else
    match data.findIdx? (fun p => decide (t ≤ p.timestamp)) with
    | none => (lst.x, lst.y)
    | some idx =>
      let p1 := data.getD (idx - 1) mpDefault
      let p2 := data.getD idx mpDefault
      let ratio := (t - p1.timestamp) / (p2.timestamp - p1.timestamp)
      (p1.x + (p2.x - p1.x) * ratio, p1.y + (p2.y - p1.y) * ratio)

/-- `AutoZoomGenerator.getVelocity`: symmetric finite difference of `sample`
over a `±0.1 s` window, in pixels per second. -/
def getVelocity (ops : TransOps) (data : List MousePosition) (t : ℚ) : ℚ :=
  let w : ℚ := 1/10
  let p1 := sample data (t - w)
  let p2 := sample data (t + w)
  ops.sqrt ((p2.1 - p1.1) ^ 2 + (p2.2 - p1.2) ^ 2) / (w * 2)

/-- `AutoZoomGenerator.checkClick`: is any clicked sample recorded within the
centered window `[t - window/2, t + window/2]`? -/
def checkClick (data : List MousePosition) (t window : ℚ) : Bool :=
  data.any fun p =>
    decide (t - window / 2 ≤ p.timestamp) && decide (p.timestamp ≤ t + window / 2)
      && p.isClicked

/-- Result of `AutoZoomGenerator.getKeyframeInfluence`. -/
structure KfInfluence where
  x : ℚ
  y : ℚ
  zoom : ℚ
  weight : ℚ
deriving DecidableEq

/-- `AutoZoomGenerator.getKeyframeInfluence`: the single nearest keyframe
within a 1.5 s window, weighted by the raised cosine `(1 + cos(ratio·π))/2`.
The stable JS sort-by-distance followed by taking index 0 is realized as the
earliest element of minimal distance. -/
def getKeyframeInfluence (ops : TransOps) (keyframes : List ZoomKeyframe) (t : ℚ) :
    KfInfluence :=
  let window : ℚ := 3/2
  let nearby := (keyframes.map fun kf => (kf, |kf.time - t|)).filter
    fun item => decide (item.2 < window)
  match nearby with
  | [] => ⟨1/2, 1/2, 1, 0⟩
  | h :: rest =>
    let best := rest.foldl (fun b item => if item.2 < b.2 then item else b) h
    let ratio := best.2 / window
    let weight := (1 + ops.cosPi ratio) / 2
    ⟨best.1.positionX, best.1.positionY, best.1.zoomFactor, weight⟩

/-- The keyframe influence actually consulted by a simulation tick: the source
only calls `getKeyframeInfluence` when the segment has keyframes (the guard
`segment.zoomKeyframes && segment.zoomKeyframes.length > 0`). -/
def tickKfInfluence (ops : TransOps) (segment : VideoSegment) (t : ℚ) : KfInfluence :=
  if segment.zoomKeyframes = [] then ⟨1/2, 1/2, 1, 0⟩
  else getKeyframeInfluence ops segment.zoomKeyframes t

/-- Rules 1–4 of section B of the simulation loop plus the keyframe zoom blend
of section C: the target zoom of the tick at time `t`, given the accumulated
hover time `hover` (already updated for this tick). -/
def tickTargetZoom (ops : TransOps) (segment : VideoSegment)
    (data : List MousePosition) (videoWidth videoHeight hover t : ℚ) : ℚ :=
  let futureMouse := sample data (t + 1/5)
  let velocity := getVelocity ops data t
  let isClicked := checkClick data t (1/2)
  -- Rule 1: velocity penalty towards MIN_ZOOM
  let speedFactor := min 1 (velocity / 1000)
  let tz1 := (7/5) * (1 - speedFactor) + 1 * speedFactor
  -- Rule 2: click focus
  let tz2 := if isClicked then max tz1 (17/10) else tz1
  -- Rule 3: deep read on long hover
  let tz3 := if 2 < hover then 2 else tz2
  -- Rule 4: edge penalty, a ceiling on the already-computed target
  let edgeDistX := min futureMouse.1 (videoWidth - futureMouse.1)
  let edgeDistY := min futureMouse.2 (videoHeight - futureMouse.2)
  let tz4 :=
    if edgeDistX < 200 ∨ edgeDistY < 200 then
      min tz3 (1 + (tz3 - 1) * (min edgeDistX edgeDistY / 200))
    else tz3
  -- Section C keyframe magnetism, zoom component
  let inf := tickKfInfluence ops segment t
  if 0 < inf.weight then tz4 * (1 - inf.weight) + inf.zoom * inf.weight else tz4

/-- Section C of the simulation loop: the target position of the tick at time
`t` (look-ahead sample, blended toward the nearest manual keyframe). -/
def tickTargetPos (ops : TransOps) (segment : VideoSegment)
    (data : List MousePosition) (videoWidth videoHeight t : ℚ) : ℚ × ℚ :=
  let futureMouse := sample data (t + 1/5)
  let inf := tickKfInfluence ops segment t
  if 0 < inf.weight then
    (futureMouse.1 * (1 - inf.weight) + inf.x * videoWidth * inf.weight,
     futureMouse.2 * (1 - inf.weight) + inf.y * videoHeight * inf.weight)
  else futureMouse

/-- The mass–spring–damper state of the simulated camera (`PhysicsState`). -/
structure SimPhys where
  x : ℚ
  y : ℚ
  zoom : ℚ
  vx : ℚ
  vy : ℚ
  vz : ℚ
deriving DecidableEq

/-- The pointer interaction state of the simulation (`InteractionState`).
`isClicking` and `clickTime` are declared and initialized by the source but
never updated afterwards; they are carried verbatim. -/
structure SimInteraction where
  isClicking : Bool
  clickTime : ℚ
  hoverTime : ℚ
  lastX : ℚ
  lastY : ℚ
deriving DecidableEq

/-- Hover-time update of section A: accrue while the pointer moved less than
2 px in this step, otherwise decay at twice the accrual rate (floored at 0). -/
def tickHover (ops : TransOps) (data : List MousePosition)
    (inter : SimInteraction) (t : ℚ) : ℚ :=
  let currentMouse := sample data t
  let moveDist :=
    ops.sqrt ((currentMouse.1 - inter.lastX) ^ 2 + (currentMouse.2 - inter.lastY) ^ 2)
  if moveDist < 2 then inter.hoverTime + 1/60
  else max 0 (inter.hoverTime - (1/60) * 2)

/-- Section E of the loop, hard constraints: clamp the camera center so the
viewport `(videoWidth/zoom, videoHeight/zoom)` stays inside the frame (zeroing
the velocity of a clamped axis), then clamp the zoom to the absolute safety
bounds `[1, 5]`.  The position clamps use the unclamped zoom, exactly as the
source does. -/
def applyHardConstraints (videoWidth videoHeight : ℚ) (p : SimPhys) : SimPhys :=
  let viewW := videoWidth / p.zoom
  let viewH := videoHeight / p.zoom
  let hw := viewW / 2
  let hh := viewH / 2
  let s1 := if p.x - hw < 0 then { p with x := hw, vx := 0 } else p
  let s2 := if videoWidth < s1.x + hw then { s1 with x := videoWidth - hw, vx := 0 } else s1
  let s3 := if s2.y - hh < 0 then { s2 with y := hh, vy := 0 } else s2
  let s4 := if videoHeight < s3.y + hh then { s3 with y := videoHeight - hh, vy := 0 } else s3
  { s4 with zoom := max 1 (min 5 s4.zoom) }

/-- Everything one simulation tick computes, recorded for the theorems:
the raw tick time, the measured pointer characteristics, the composed target
zoom, the integrator state before and after the hard constraints, and the path
entry actually pushed by section F. -/
structure TickRecord where
  time : ℚ
  velocity : ℚ
  clickedWindow : Bool
  hoverAfter : ℚ
  futureX : ℚ
  futureY : ℚ
  kfWeight : ℚ
  targetZoom : ℚ
  preClampZoom : ℚ
  stateX : ℚ
  stateY : ℚ
  stateZoom : ℚ
  entry : PathPoint
deriving DecidableEq

/-- Default record used only to totalize list indexing in closed statements. -/
def trDefault : TickRecord := ⟨0, 0, false, 0, 0, 0, 0, 0, 0, 0, 0, 0, ⟨0, 0, 0, 0⟩⟩

/-- Section D of the simulation loop: the spring/damper acceleration (heavier
mass on the zoom axis) and one explicit Euler step at `dt = 1/60`. -/
def tickIntegrated (ops : TransOps) (segment : VideoSegment) (data : List MousePosition)
    (videoWidth videoHeight : ℚ) (st : SimPhys × SimInteraction) (t : ℚ) : SimPhys :=
  let phys := st.1
  let hover := tickHover ops data st.2 t
  let tZ := tickTargetZoom ops segment data videoWidth videoHeight hover t
  let tPos := tickTargetPos ops segment data videoWidth videoHeight t
  let ax := (-25 * (phys.x - tPos.1) - 25 * phys.vx) / 3
  let ay := (-25 * (phys.y - tPos.2) - 25 * phys.vy) / 3
  let az := (-25 * (phys.zoom - tZ) - 25 * phys.vz) / (3 * 3)
  let vx' := phys.vx + ax * (1/60)
  let vy' := phys.vy + ay * (1/60)
  let vz' := phys.vz + az * (1/60)
  ⟨phys.x + vx' * (1/60), phys.y + vy' * (1/60), phys.zoom + vz' * (1/60), vx', vy', vz'⟩

/-- One iteration of the simulation loop of `generateMotionPath` (sections
A–F), on already filtered and sorted data.  The body repeats the section-D
computation of `tickIntegrated` verbatim (as one shared `let` chain), so the
record's projections are definitionally the named stage functions. -/
def simTick (ops : TransOps) (segment : VideoSegment) (data : List MousePosition)
    (videoWidth videoHeight : ℚ) (st : SimPhys × SimInteraction) (t : ℚ) :
    (SimPhys × SimInteraction) × TickRecord :=
  let phys := st.1
  let inter := st.2
  let currentMouse := sample data t
  let hover := tickHover ops data inter t
  let inter' : SimInteraction :=
    ⟨inter.isClicking, inter.clickTime, hover, currentMouse.1, currentMouse.2⟩
  let tZ := tickTargetZoom ops segment data videoWidth videoHeight hover t
  let tPos := tickTargetPos ops segment data videoWidth videoHeight t
  let ax := (-25 * (phys.x - tPos.1) - 25 * phys.vx) / 3
  let ay := (-25 * (phys.y - tPos.2) - 25 * phys.vy) / 3
  let az := (-25 * (phys.zoom - tZ) - 25 * phys.vz) / (3 * 3)
  let vx' := phys.vx + ax * (1/60)
  let vy' := phys.vy + ay * (1/60)
  let vz' := phys.vz + az * (1/60)
  let integrated : SimPhys :=
    ⟨phys.x + vx' * (1/60), phys.y + vy' * (1/60), phys.zoom + vz' * (1/60), vx', vy', vz'⟩
  let clamped := applyHardConstraints videoWidth videoHeight integrated
  let fut := sample data (t + 1/5)
  let record : TickRecord :=
    { time := t
      velocity := getVelocity ops data t
      clickedWindow := checkClick data t (1/2)
      hoverAfter := hover
      futureX := fut.1
      futureY := fut.2
      kfWeight := (tickKfInfluence ops segment t).weight
      targetZoom := tZ
      preClampZoom := integrated.zoom
      stateX := clamped.x
      stateY := clamped.y
      stateZoom := clamped.zoom
      entry := ⟨toFixed3 t, toFixed1 clamped.x, toFixed1 clamped.y, toFixed3 clamped.zoom⟩ }
  ((clamped, inter'), record)

/-- Run the simulation over the given tick times, threading the state. -/
def runTicks (ops : TransOps) (segment : VideoSegment) (data : List MousePosition)
    (videoWidth videoHeight : ℚ) :
    List ℚ → SimPhys × SimInteraction → List TickRecord
  | [], _ => []
  | t :: ts, st =>
    let step := simTick ops segment data videoWidth videoHeight st t
    step.2 :: runTicks ops segment data videoWidth videoHeight ts step.1

/-- Number of iterations of `for (let t = trimStart; t <= trimEnd; t += dt)`
over exact rationals: ticks are `trimStart + k/60` for `k ≤ ⌊60·(trimEnd -
trimStart)⌋`. -/
def numTicks (trimStart trimEnd : ℚ) : ℕ :=
  if trimStart ≤ trimEnd then (⌊(trimEnd - trimStart) * 60⌋).toNat + 1 else 0

/-- The tick times of the simulation loop. -/
def tickTimes (trimStart trimEnd : ℚ) : List ℚ :=
  (List.range (numTicks trimStart trimEnd)).map fun k => trimStart + (k : ℚ) / 60

/-- Insert into a timestamp-sorted list, after all earlier elements of equal
timestamp, so that the derived sort is stable (like JS `Array.sort` with the
comparator `(a, b) => a.timestamp - b.timestamp`). -/
def insertByTimestamp (p : MousePosition) : List MousePosition → List MousePosition
  | [] => [p]
  | q :: l => if p.timestamp ≤ q.timestamp then p :: q :: l else q :: insertByTimestamp p l

/-- Stable ascending sort by timestamp. -/
def sortByTimestamp (l : List MousePosition) : List MousePosition :=
  l.foldr insertByTimestamp []

/-- Step 0 of `generateMotionPath`: keep the samples within the trim range
padded by one second, sorted by timestamp (JS `sort` is stable). -/
def filterAndSort (segment : VideoSegment) (mousePositions : List MousePosition) :
    List MousePosition :=
  sortByTimestamp (mousePositions.filter fun p =>
    decide (segment.trimStart - 1 ≤ p.timestamp)
      && decide (p.timestamp ≤ segment.trimEnd + 1))

/-- `AutoZoomGenerator.generateMotionPath`, instrumented: the list of per-tick
records.  Returns `[]` when fewer than 2 samples fall in the padded range. -/
def generateMotionPathAux (ops : TransOps) (segment : VideoSegment)
    (mousePositions : List MousePosition) (videoWidth videoHeight : ℚ) :
    List TickRecord :=
  let data := filterAndSort segment mousePositions
  if data.length < 2 then []
  else
    let first := data.headD mpDefault
    let phys0 : SimPhys := ⟨videoWidth / 2, videoHeight / 2, 1, 0, 0, 0⟩
    let inter0 : SimInteraction := ⟨false, -100, 0, first.x, first.y⟩
    runTicks ops segment data videoWidth videoHeight
      (tickTimes segment.trimStart segment.trimEnd) (phys0, inter0)

/-- `AutoZoomGenerator.generateMotionPath`: the dense camera path, each entry
rounded as by `toFixed(3)`/`toFixed(1)` in section F. -/
def generateMotionPath (ops : TransOps) (segment : VideoSegment)
    (mousePositions : List MousePosition) (videoWidth videoHeight : ℚ) :
    List PathPoint :=
  (generateMotionPathAux ops segment mousePositions videoWidth videoHeight).map
    fun r => r.entry

/-! ## Frame Compositor camera resolution
(`VideoRenderer.calculateCurrentZoomStateInternal`,
src/screen-record/src/lib/videoRenderer.ts) -/

/-- The renderer's `DEFAULT_STATE`: identity camera (zoom 1, centered). -/
def DEFAULT_STATE : ZoomKeyframe := ⟨0, 0, 1, 1/2, 1/2, .linear⟩

/-- Default path point used only to totalize list indexing. -/
def ppDefault : PathPoint := ⟨0, 0, 0, 0⟩

/-- `VideoRenderer.easeOutCubic`. -/
def easeOutCubic (x : ℚ) : ℚ := 1 - (1 - x) ^ 3

/-- Stable insert by keyframe time (like JS `sort` with `a.time - b.time`). -/
def insertKfByTime (k : ZoomKeyframe) : List ZoomKeyframe → List ZoomKeyframe
  | [] => [k]
  | q :: l => if k.time ≤ q.time then k :: q :: l else q :: insertKfByTime k l

/-- Stable ascending sort of keyframes by time. -/
def sortKeyframesByTime (l : List ZoomKeyframe) : List ZoomKeyframe :=
  l.foldr insertKfByTime []

/-- A raw camera sample of the dense-path branch. -/
structure CamState where
  x : ℚ
  y : ℚ
  zoom : ℚ
deriving DecidableEq

/-- Dense-path branch of `calculateCurrentZoomStateInternal`: locate the first
path sample at or after `currentTime` and interpolate linearly with its
predecessor; clamp to the first/last sample outside the path's range. -/
def densePathCam (path : List PathPoint) (currentTime : ℚ) : CamState :=
  match path.findIdx? (fun p => decide (currentTime ≤ p.time)) with
  | none =>
    let last := path.getLastD ppDefault
    ⟨last.x, last.y, last.zoom⟩
  | some 0 =>
    let first := path.headD ppDefault
    ⟨first.x, first.y, first.zoom⟩
  | some idx =>
    let p1 := path.getD (idx - 1) ppDefault
    let p2 := path.getD idx ppDefault
    let t := (currentTime - p1.time) / (p2.time - p1.time)
    ⟨p1.x + (p2.x - p1.x) * t, p1.y + (p2.y - p1.y) * t, p1.zoom + (p2.zoom - p1.zoom) * t⟩

/-- Influence-curve interpolation of `calculateCurrentZoomStateInternal`:
cosine-eased interpolation between the bracketing influence points, clamped to
the first/last value outside their range. -/
def influenceAt (ops : TransOps) (points : List InfluencePoint) (currentTime : ℚ) : ℚ :=
  match points.findIdx? (fun p => decide (currentTime ≤ p.time)) with
  | none => (points.getLastD ⟨0, 0⟩).value
  | some 0 => (points.headD ⟨0, 0⟩).value
  | some idx =>
    let ip1 := points.getD (idx - 1) ⟨0, 0⟩
    let ip2 := points.getD idx ⟨0, 0⟩
    let it := (currentTime - ip1.time) / (ip2.time - ip1.time)
    let cosT := (1 - ops.cosPi it) / 2
    ip1.value * (1 - cosT) + ip2.value * cosT

/-- The single nearest keyframe within the 1.5 s magnetism window together
with its temporal distance (earliest wins ties, like the stable JS sort). -/
def nearestKeyframe (keyframes : List ZoomKeyframe) (t : ℚ) : Option (ZoomKeyframe × ℚ) :=
  match (keyframes.map fun kf => (kf, |kf.time - t|)).filter
      (fun item => decide (item.2 < 3/2)) with
  | [] => none
  | h :: rest => some (rest.foldl (fun b item => if item.2 < b.2 then item else b) h)

/-- Keyframe-fallback ease between a bracketing pair whose gap is at most the
transition duration (1 s): cubic ease-out on the progress between them. -/
def easeBetweenKeyframes (prev next : ZoomKeyframe) (currentTime : ℚ) : ZoomKeyframe :=
  let progress := (currentTime - prev.time) / (next.time - prev.time)
  let eased := easeOutCubic (min 1 (max 0 progress))
  ⟨currentTime, next.time - prev.time,
    prev.zoomFactor + (next.zoomFactor - prev.zoomFactor) * eased,
    prev.positionX + (next.positionX - prev.positionX) * eased,
    prev.positionY + (next.positionY - prev.positionY) * eased, .easeOut⟩

/-- Keyframe-fallback approach transition: within the last transition-duration
second before `next`, ease from `start` (the previous keyframe or the default
state) into `next`. -/
def easeTowardKeyframe (start next : ZoomKeyframe) (currentTime : ℚ) : ZoomKeyframe :=
  let timeToNext := next.time - currentTime
  let progress := (1 - timeToNext) / 1
  let eased := easeOutCubic (min 1 (max 0 progress))
  ⟨currentTime, 1,
    start.zoomFactor + (next.zoomFactor - start.zoomFactor) * eased,
    start.positionX + (next.positionX - start.positionX) * eased,
    start.positionY + (next.positionY - start.positionY) * eased, .easeOut⟩

/-- Discrete keyframe fallback of `calculateCurrentZoomStateInternal` (the
branch taken when no dense motion path exists), translated branch for branch
from the source's early-return chain. -/
def resolveByKeyframes (currentTime : ℚ) (keyframes : List ZoomKeyframe) : ZoomKeyframe :=
  let sorted := sortKeyframesByTime keyframes
  if sorted.isEmpty then DEFAULT_STATE
  else
    let nextKeyframe := sorted.find? fun k => decide (currentTime < k.time)
    let prevKeyframe := sorted.reverse.find? fun k => decide (k.time ≤ currentTime)
    match prevKeyframe, nextKeyframe with
    | some prev, some next =>
      if next.time - prev.time ≤ 1 then easeBetweenKeyframes prev next currentTime
      else if next.time - currentTime ≤ 1 then easeTowardKeyframe prev next currentTime
      else prev
    | none, some next =>
      if next.time - currentTime ≤ 1 then easeTowardKeyframe DEFAULT_STATE next currentTime
      else DEFAULT_STATE
    | some prev, none => prev
    | none, none => DEFAULT_STATE

/-- The keyframe-fallback resolution as the specification sentence describes it
(after amendment): find the keyframes bracketing `currentTime`; if both exist
and their gap is at most the transition duration, cubic-ease between them;
otherwise, if the next keyframe lies within the transition duration ahead,
ease from the previous keyframe (or the identity default) into it; otherwise
hold the previous keyframe unchanged, or the identity default state when no
keyframe precedes. -/
def resolveByKeyframesSpec (currentTime : ℚ) (keyframes : List ZoomKeyframe) :
    ZoomKeyframe :=
  let sorted := sortKeyframesByTime keyframes
  let next := sorted.find? fun k => decide (currentTime < k.time)
  let prev := sorted.reverse.find? fun k => decide (k.time ≤ currentTime)
  match prev, next with
  | some p, some n =>
    if n.time - p.time ≤ 1 then easeBetweenKeyframes p n currentTime
    else if n.time - currentTime ≤ 1 then easeTowardKeyframe p n currentTime
    else p
  | none, some n =>
    if n.time - currentTime ≤ 1 then easeTowardKeyframe DEFAULT_STATE n currentTime
    else DEFAULT_STATE
  | some p, none => p
  | none, none => DEFAULT_STATE

/-- `VideoRenderer.calculateCurrentZoomStateInternal`: dense-path interpolation
with influence scaling and keyframe magnetism when a dense path exists,
otherwise the discrete keyframe fallback. -/
def calculateCurrentZoomStateInternal (ops : TransOps) (currentTime : ℚ)
    (segment : VideoSegment) (viewW viewH : ℚ) : ZoomKeyframe :=
  if segment.smoothMotionPath.isEmpty then
    resolveByKeyframes currentTime segment.zoomKeyframes
  else
    let cam0 := densePathCam segment.smoothMotionPath currentTime
    let cam :=
      if segment.zoomInfluencePoints.isEmpty then cam0
      else
        let influence := influenceAt ops segment.zoomInfluencePoints currentTime
        (⟨viewW / 2 + (cam0.x - viewW / 2) * influence,
          viewH / 2 + (cam0.y - viewH / 2) * influence,
          1 + (cam0.zoom - 1) * influence⟩ : CamState)
    let base : ZoomKeyframe :=
      ⟨currentTime, 0, cam.zoom, cam.x / viewW, cam.y / viewH, .linear⟩
    if segment.zoomKeyframes.isEmpty then base
    else
      match nearestKeyframe segment.zoomKeyframes currentTime with
      | none => base
      | some (kf, dist) =>
        let ratio := dist / (3/2)
        let weight := (1 + ops.cosPi ratio) / 2
        { base with
            zoomFactor := base.zoomFactor * (1 - weight) + kf.zoomFactor * weight
            positionX := base.positionX * (1 - weight) + kf.positionX * weight
            positionY := base.positionY * (1 - weight) + kf.positionY * weight }

/-- The mutable renderer state relevant to camera resolution
(`VideoRenderer.lastCalculatedState`). -/
structure RendererState where
  lastCalculatedState : Option ZoomKeyframe
deriving DecidableEq

/-- `VideoRenderer.calculateCurrentZoomState`: resolve the camera state and
record it in the renderer's mutable `lastCalculatedState` field. -/
def calculateCurrentZoomState (ops : TransOps) (_r : RendererState) (currentTime : ℚ)
    (segment : VideoSegment) (viewW viewH : ℚ) : ZoomKeyframe × RendererState :=
  let s := calculateCurrentZoomStateInternal ops currentTime segment viewW viewH
  (s, ⟨some s⟩)

/-- The virtual timestamps of the export render loop
`while (currentTime < endTime) { ...; currentTime += step }` over exact
rationals: `start + k·step` for `k < ⌈(stop - start)/step⌉` (empty when the
step is not positive — the source guarantees `speed > 0`). -/
def exportTimes (start stop step : ℚ) : List ℚ :=
  if step ≤ 0 then []
  else (List.range (⌈(stop - start) / step⌉).toNat).map fun k => start + (k : ℚ) * step

/-- Resolve the camera state at each time in turn, threading the renderer's
mutable state exactly as successive `drawFrame` calls do. -/
def resolveSequence (ops : TransOps) (segment : VideoSegment) (viewW viewH : ℚ) :
    List ℚ → RendererState → List ZoomKeyframe
  | [], _ => []
  | t :: ts, r =>
    let step := calculateCurrentZoomState ops r t segment viewW viewH
    step.1 :: resolveSequence ops segment viewW viewH ts step.2

/-- The sequence of camera states an export resolves: one per virtual frame
timestamp (60 fps stepped by `(1/60)·speed` from `trimStart` to `trimEnd`),
starting from renderer state `r`. -/
def exportResolvedStates (ops : TransOps) (r : RendererState) (segment : VideoSegment)
    (viewW viewH speed : ℚ) : List ZoomKeyframe :=
  resolveSequence ops segment viewW viewH
    (exportTimes segment.trimStart segment.trimEnd ((1/60) * speed)) r

/-! ## Export Driver (`VideoExporter`, src/unnamed/part_001 and
src/screen-record/src/lib/videoExporter.ts) -/

/-- The `DIMENSION_PRESETS` table with the `|| DIMENSION_PRESETS['1080p']`
fallback for unknown keys; `(0, 0)` encodes the `original` preset. -/
def dimensionPreset (dims : String) : ℤ × ℤ :=
  if dims = "original" then (0, 0)
  else if dims = "1080p" then (1920, 1080)
  else if dims = "720p" then (1280, 720)
  else (1920, 1080)

/-- `if (n % 2 !== 0) n--`: force an even dimension. -/
def evenize (n : ℤ) : ℤ := if n % 2 ≠ 0 then n - 1 else n

/-- JS `Math.round`: round half toward positive infinity. -/
def jsRound (q : ℚ) : ℤ := ⌊q + 1/2⌋

/-- Dimension negotiation of the exporters in src/unnamed/part_001 and the
second half of videoExporter.ts: take the preset size as-is; only the
`original` preset consults the source dimensions (forced even). -/
def negotiateDimensionsFixed (dims : String) (vidW vidH : ℤ) : ℤ × ℤ :=
  let preset := dimensionPreset dims
  if preset.1 = 0 ∨ preset.2 = 0 then (evenize vidW, evenize vidH) else preset

/-- Dimension negotiation of the first exporter in videoExporter.ts: fix the
preset height and derive the width from the cropped aspect ratio
(`Math.round(height * (croppedW / croppedH))`), then force both even. -/
def negotiateDimensionsCropped (dims : String) (vidW vidH : ℤ) (crop : CropRect) :
    ℤ × ℤ :=
  let preset := dimensionPreset dims
  let croppedW := jsRound ((vidW : ℚ) * crop.width)
  let croppedH := jsRound ((vidH : ℚ) * crop.height)
  let wh :=
    if preset.2 = 0 then (croppedW, croppedH)
    else (jsRound ((preset.2 : ℚ) * ((croppedW : ℚ) / (croppedH : ℚ))), preset.2)
  (evenize wh.1, evenize wh.2)

/-- Observable side effects of one export run, in program order. -/
inductive ExportEffect where
  | createVideoElement
  | loadVideo
  | startServer (width height : ℤ) (framerate : ℤ) (trimStart duration speed : ℚ)
  | seekTo (t : ℚ)
  | renderFrame (t : ℚ)
  | submitFrame (t : ℚ)
  | finishStream
  | removeVideoElement
deriving DecidableEq

/-- The exporter's mutable fields (`isExporting`, `shouldStop`). -/
structure ExporterState where
  isExporting : Bool
  shouldStop : Bool
deriving DecidableEq

/-- The error taxonomy of `exportAndDownload`. -/
inductive ExportError where
  | alreadyInProgress
  | missingElements
  | serverStartFailed
deriving DecidableEq

/-- The inputs of `exportAndDownload` as far as the model observes them:
whether the required elements are present, the dimension preset, the source
video dimensions, the trim range and speed, and whether the native server
start succeeds (an external outcome). -/
structure ExportOptions where
  hasElements : Bool
  dimensions : String
  vidW : ℤ
  vidH : ℤ
  trimStart : ℚ
  trimEnd : ℚ
  speed : ℚ
  serverStartOk : Bool
deriving DecidableEq

/-- Result of one `exportAndDownload` call: the exporter state afterwards, the
side effects performed, and the error thrown (if any). -/
structure ExportOutcome where
  state : ExporterState
  effects : List ExportEffect
  error : Option ExportError
deriving DecidableEq

/-- `VideoExporter.exportAndDownload` (src/unnamed/part_001): reject
immediately with no side effects while an export is in flight; otherwise mark
exporting, create and load the off-screen video element, start the native
export server with the negotiated geometry, run the seek–render–submit loop
over the virtual timeline, finish the stream, and release the element (the
`finally` clears `isExporting`).  A failed server start releases the element
and rethrows.  A missing-elements throw happens after `isExporting` was set
and outside the `try`, so that flag stays set — modelled verbatim. -/
def exportAndDownload (s : ExporterState) (opts : ExportOptions) : ExportOutcome :=
  if s.isExporting then ⟨s, [], some .alreadyInProgress⟩
  else
    let s1 : ExporterState := ⟨true, false⟩
    if opts.hasElements = false then ⟨s1, [], some .missingElements⟩
    else
      let dims := negotiateDimensionsFixed opts.dimensions opts.vidW opts.vidH
      let pre : List ExportEffect := [.createVideoElement, .loadVideo]
      if opts.serverStartOk = false then
        ⟨⟨false, false⟩, pre ++ [.removeVideoElement], some .serverStartFailed⟩
      else
        let frames := exportTimes opts.trimStart opts.trimEnd ((1/60) * opts.speed)
        ⟨⟨false, false⟩,
          pre ++
            [.startServer dims.1 dims.2 60 opts.trimStart
                (opts.trimEnd - opts.trimStart) opts.speed] ++
            (frames.flatMap fun t => [.seekTo t, .renderFrame t, .submitFrame t]) ++
            [.finishStream, .removeVideoElement],
          none⟩

/-! ## Cursor Smoother (`VideoRenderer.smoothMousePositions`,
src/screen-record/src/lib/videoRenderer.ts) -/

/-- `VideoRenderer.catmullRomInterpolate`. -/
def catmullRom (p0 p1 p2 p3 t : ℚ) : ℚ :=
  (1/2) * (2 * p1 + (-p0 + p2) * t + (2 * p0 - 5 * p1 + 4 * p2 - p3) * t ^ 2 +
    (-p0 + 3 * p1 - 3 * p2 + p3) * t ^ 3)

/-- Catmull–Rom resampling pass of `smoothMousePositions` at the fixed target
rate of 120 fps (the default `targetFps`, the only rate the source uses): one
4-point window per input index, `⌈segmentDuration·120⌉` output frames per
window interpolating between the window's middle points. -/
def resampleCR : List MousePosition → List MousePosition
  | p0 :: p1 :: p2 :: p3 :: rest =>
    let segmentDuration := p2.timestamp - p1.timestamp
    let numFrames := (⌈segmentDuration * 120⌉).toNat
    ((List.range numFrames).map fun frame =>
      let t := (frame : ℚ) / (numFrames : ℚ)
      { timestamp := p1.timestamp + segmentDuration * t
        x := catmullRom p0.x p1.x p2.x p3.x t
        y := catmullRom p0.y p1.y p2.y p3.y t
        isClicked := p1.isClicked || p2.isClicked
        cursor_type := if t < 1/2 then p1.cursor_type else p2.cursor_type }) ++
      resampleCR (p1 :: p2 :: p3 :: rest)
  | _ => []

/-- One Gaussian-weighted moving-average pass over a symmetric index window of
half-width `windowSize`, weights `exp(-distance·(0.5/windowSize))`; timestamps,
click state and cursor kind are carried from the center sample. -/
def gaussPass (ops : TransOps) (windowSize : ℕ) (l : List MousePosition) :
    List MousePosition :=
  (List.range l.length).map fun i =>
    let cur := l.getD i mpDefault
    let lo := i - windowSize
    let hi := min (l.length - 1) (i + windowSize)
    let idxs := (List.range (hi + 1 - lo)).map (· + lo)
    let sums := idxs.foldl
      (fun (acc : ℚ × ℚ × ℚ) j =>
        let p := l.getD j mpDefault
        let dist : ℕ := max i j - min i j
        let weight := ops.exp (-(dist : ℚ) * ((1/2) / (windowSize : ℚ)))
        (acc.1 + p.x * weight, acc.2.1 + p.y * weight, acc.2.2 + weight))
      (0, 0, 0)
    { x := sums.1 / sums.2.2, y := sums.2.1 / sums.2.2, timestamp := cur.timestamp,
      isClicked := cur.isClicked, cursor_type := cur.cursor_type }

/-- Deadband collapse loop: suppress position updates (coalescing to the last
significant position, carrying the current timestamp) unless the displacement
exceeds the threshold or the click state changes. -/
def deadbandGo (ops : TransOps) (threshold : ℚ) (last : MousePosition) :
    List MousePosition → List MousePosition
  | [] => []
  | c :: rest =>
    let distance := ops.sqrt ((c.x - last.x) ^ 2 + (c.y - last.y) ^ 2)
    if threshold < distance ∨ c.isClicked ≠ last.isClicked then
      c :: deadbandGo ops threshold c rest
    else { last with timestamp := c.timestamp } :: deadbandGo ops threshold last rest

/-- Deadband collapse pass with threshold `0.5/(windowSize/2)`; the first
sample is always kept.  (On the empty list JS would produce a 1-element list
holding `undefined`; that case is unreachable behind the length-4 guard with
the inputs considered here and is modelled as the empty list.) -/
def deadband (ops : TransOps) (windowSize : ℕ) (l : List MousePosition) :
    List MousePosition :=
  match l with
  | [] => []
  | h :: rest => h :: deadbandGo ops ((1/2) / ((windowSize : ℚ) / 2)) h rest

/-- `VideoRenderer.smoothMousePositions`: identity below 4 samples, otherwise
Catmull–Rom resampling, `⌈windowSize/2⌉` Gaussian passes with
`windowSize = cursorSmoothness·2 + 1` (where `cursorSmoothness` is the
caller's `backgroundConfig?.cursorSmoothness || 5`), then deadband collapse. -/
def smoothMousePositions (ops : TransOps) (cursorSmoothness : ℕ)
    (positions : List MousePosition) : List MousePosition :=
  if positions.length < 4 then positions
  else
    let smoothed := resampleCR positions
    let windowSize := cursorSmoothness * 2 + 1
    let passes := (windowSize + 1) / 2
    let current := (gaussPass ops windowSize)^[passes] smoothed
    deadband ops windowSize current

/-! ## Concrete inputs for the closed runs

Every run keeps the pointer on a single horizontal line, so each `Math.sqrt`
argument is the square of a rational and `ratSqrt` returns the exact real
value; no run evaluates `ratCosPi` away from `0` and none depends on `ratExp`
values. -/

/-- Full-frame crop. -/
def crop0 : CropRect := ⟨0, 0, 1, 1⟩

/-- Segment of one simulation tick with a manual keyframe of `zoomFactor 2000`
pinned exactly at the tick time (influence weight `(1 + cos 0)/2 = 1`). -/
def segOneTickKf : VideoSegment := ⟨0, 1/120, crop0, [⟨0, 0, 2000, 1/2, 1/2, .linear⟩], [], []⟩

/-- Two static samples at the frame center of a 2000×2000 video. -/
def dataStatic1000 : List MousePosition :=
  [⟨0, 1000, 1000, false, none⟩, ⟨1/2, 1000, 1000, false, none⟩]


/-- Segment of one simulation tick, no keyframes. -/
def segOneTickPlain : VideoSegment := ⟨0, 1/120, crop0, [], [], []⟩

/-- Two static samples at `(250, 1000)`: 250 px from the left edge, outside
the 200 px edge margin, so no edge pull-back applies while the position clamp
binds immediately. -/
def dataNearEdge : List MousePosition :=
  [⟨0, 250, 1000, false, none⟩, ⟨1/2, 250, 1000, false, none⟩]

/-- Segment of one tick at `t = 1/2`. -/
def segHalfTick : VideoSegment := ⟨1/2, 1/2 + 1/120, crop0, [], [], []⟩

/-- Pointer moving along a line at 1000 px/s with a click recorded at `t = 0.5`. -/
def dataClickMove : List MousePosition :=
  [⟨0, 0, 1000, false, none⟩, ⟨1/2, 500, 1000, true, none⟩, ⟨1, 1000, 1000, false, none⟩]


/-- Pointer moving along a line at 1000 px/s with no clicks. -/
def dataFastMove : List MousePosition :=
  [⟨0, 0, 500, false, none⟩, ⟨1, 1000, 500, false, none⟩]


/-- The scenario segment of the click-focus claim: trim `[0, 2]`. -/
def segClickWindow : VideoSegment := ⟨0, 2, crop0, [], [], []⟩

/-- Static pointer at the center with a single click recorded at `t = 1`. -/
def dataSingleClick : List MousePosition :=
  [⟨0, 1000, 1000, false, none⟩, ⟨1, 1000, 1000, true, none⟩, ⟨2, 1000, 1000, false, none⟩]

/-- Segment of one tick at `t = 1` (inside the click window of
`dataSingleClick`). -/
def segClickAtOne : VideoSegment := ⟨1, 1 + 1/120, crop0, [], [], []⟩


/-- The earlier of two keyframes 10 s apart. -/
def kfEarly : ZoomKeyframe := ⟨0, 0, 1, 1/2, 1/2, .linear⟩

/-- The later of two keyframes 10 s apart. -/
def kfLate : ZoomKeyframe := ⟨10, 0, 2, 1/2, 1/2, .linear⟩

/-- Segment with no dense path and two keyframes 10 s apart (gap far above the
1 s transition duration). -/
def segKfFar : VideoSegment := ⟨0, 10, crop0, [kfEarly, kfLate], [], []⟩

/-- A perfectly linear trace sampled exactly at 120 fps (the smoother's target
rate), with no clicks. -/
def denseLine : List MousePosition :=
  [⟨0, 0, 0, false, none⟩, ⟨1/120, 10, 0, false, none⟩, ⟨2/120, 20, 0, false, none⟩,
   ⟨3/120, 30, 0, false, none⟩, ⟨4/120, 40, 0, false, none⟩]

/-- Export options used by the exporter witnesses. -/
def optsExport : ExportOptions := ⟨true, "1080p", 1920, 1080, 0, 1/30, 1, true⟩

/-- Segment used by the short-input witness of the generator. -/
def segShort : VideoSegment := ⟨0, 1, crop0, [], [], []⟩

/-- A single sample lying outside the padded trim range of `segShort`. -/
def dataFar : List MousePosition := [⟨5, 0, 0, false, none⟩]

/-- A two-sample trace (shorter than the smoother's 4-sample minimum). -/
def shortTrace : List MousePosition := [⟨0, 1, 2, false, none⟩, ⟨1, 3, 4, true, none⟩]

/-! ## Helper lemmas -/

theorem one_le_toFixed3 {q : ℚ} (h : 1 ≤ q) : 1 ≤ toFixed3 q := by
  unfold toFixed3
  have hf : (1000 : ℤ) ≤ ⌊q * 1000 + 1/2⌋ := Int.le_floor.mpr (by push_cast; linarith)
  have hq : (1000 : ℚ) ≤ (⌊q * 1000 + 1/2⌋ : ℚ) := by exact_mod_cast hf
  rw [le_div_iff₀ (by norm_num : (0:ℚ) < 1000)]
  linarith

theorem toFixed3_le_five {q : ℚ} (h : q ≤ 5) : toFixed3 q ≤ 5 := by
  unfold toFixed3
  have h2 : ⌊q * 1000 + 1/2⌋ ≤ ⌊(5000 : ℚ) + 1/2⌋ := Int.floor_le_floor (by linarith)
  have h3 : ⌊(5000 : ℚ) + 1/2⌋ = 5000 := by norm_num
  have hq : (⌊q * 1000 + 1/2⌋ : ℚ) ≤ 5000 := by exact_mod_cast h3 ▸ h2
  rw [div_le_iff₀ (by norm_num : (0:ℚ) < 1000)]
  linarith

theorem applyHC_zoom (W H : ℚ) (p : SimPhys) :
    (applyHardConstraints W H p).zoom = max 1 (min 5 p.zoom) := by
  simp only [applyHardConstraints]
  split_ifs <;> rfl

theorem applyHC_zoom_bounds (W H : ℚ) (p : SimPhys) :
    1 ≤ (applyHardConstraints W H p).zoom ∧ (applyHardConstraints W H p).zoom ≤ 5 := by
  rw [applyHC_zoom]
  exact ⟨le_max_left _ _, max_le (by norm_num) (min_le_left _ _)⟩

theorem applyHC_viewport_x {W : ℚ} (H : ℚ) {p : SimPhys} (hW : 0 < W) (hz : 1 ≤ p.zoom) :
    0 ≤ (applyHardConstraints W H p).x - W / p.zoom / 2 ∧
      (applyHardConstraints W H p).x + W / p.zoom / 2 ≤ W := by
  have hz0 : (0:ℚ) < p.zoom := lt_of_lt_of_le one_pos hz
  have hle : W / p.zoom ≤ W := div_le_self (le_of_lt hW) hz
  have hpos : 0 < W / p.zoom := div_pos hW hz0
  simp only [applyHardConstraints]
  split_ifs <;> constructor <;> simp only at * <;> linarith

theorem applyHC_viewport_y (W : ℚ) {H : ℚ} {p : SimPhys} (hH : 0 < H) (hz : 1 ≤ p.zoom) :
    0 ≤ (applyHardConstraints W H p).y - H / p.zoom / 2 ∧
      (applyHardConstraints W H p).y + H / p.zoom / 2 ≤ H := by
  have hz0 : (0:ℚ) < p.zoom := lt_of_lt_of_le one_pos hz
  have hle : H / p.zoom ≤ H := div_le_self (le_of_lt hH) hz
  have hpos : 0 < H / p.zoom := div_pos hH hz0
  simp only [applyHardConstraints]
  split_ifs <;> constructor <;> simp only at * <;> linarith

theorem mem_runTicks {ops : TransOps} {seg : VideoSegment} {data : List MousePosition}
    {W H : ℚ} :
    ∀ {ts : List ℚ} {st : SimPhys × SimInteraction} {r : TickRecord},
      r ∈ runTicks ops seg data W H ts st →
      ∃ st' t, r = (simTick ops seg data W H st' t).2
  | [], _, _, h => absurd h (List.not_mem_nil _)
  | t :: ts, st, r, h => by
    simp only [runTicks] at h
    rcases List.mem_cons.mp h with h | h
    · exact ⟨st, t, h⟩
    · exact mem_runTicks h

theorem mem_generateMotionPathAux {ops : TransOps} {seg : VideoSegment}
    {mps : List MousePosition} {W H : ℚ} {r : TickRecord}
    (h : r ∈ generateMotionPathAux ops seg mps W H) :
    ∃ st t, r = (simTick ops seg (filterAndSort seg mps) W H st t).2 := by
  simp only [generateMotionPathAux] at h
  split at h
  · exact absurd h (List.not_mem_nil _)
  · exact mem_runTicks h

theorem simTick_preClampZoom (ops : TransOps) (seg : VideoSegment)
    (data : List MousePosition) (W H : ℚ) (st : SimPhys × SimInteraction) (t : ℚ) :
    ((simTick ops seg data W H st t).2).preClampZoom =
      (tickIntegrated ops seg data W H st t).zoom := rfl

theorem simTick_stateX (ops : TransOps) (seg : VideoSegment)
    (data : List MousePosition) (W H : ℚ) (st : SimPhys × SimInteraction) (t : ℚ) :
    ((simTick ops seg data W H st t).2).stateX =
      (applyHardConstraints W H (tickIntegrated ops seg data W H st t)).x := rfl

theorem simTick_stateY (ops : TransOps) (seg : VideoSegment)
    (data : List MousePosition) (W H : ℚ) (st : SimPhys × SimInteraction) (t : ℚ) :
    ((simTick ops seg data W H st t).2).stateY =
      (applyHardConstraints W H (tickIntegrated ops seg data W H st t)).y := rfl

theorem simTick_entry_zoom (ops : TransOps) (seg : VideoSegment)
    (data : List MousePosition) (W H : ℚ) (st : SimPhys × SimInteraction) (t : ℚ) :
    ((simTick ops seg data W H st t).2).entry.zoom =
      toFixed3 ((applyHardConstraints W H (tickIntegrated ops seg data W H st t)).zoom) :=
  rfl

theorem simTick_targetZoom (ops : TransOps) (seg : VideoSegment)
    (data : List MousePosition) (W H : ℚ) (st : SimPhys × SimInteraction) (t : ℚ) :
    ((simTick ops seg data W H st t).2).targetZoom =
      tickTargetZoom ops seg data W H (tickHover ops data st.2 t) t := rfl

theorem simTick_hoverAfter (ops : TransOps) (seg : VideoSegment)
    (data : List MousePosition) (W H : ℚ) (st : SimPhys × SimInteraction) (t : ℚ) :
    ((simTick ops seg data W H st t).2).hoverAfter = tickHover ops data st.2 t := rfl

theorem simTick_velocity (ops : TransOps) (seg : VideoSegment)
    (data : List MousePosition) (W H : ℚ) (st : SimPhys × SimInteraction) (t : ℚ) :
    ((simTick ops seg data W H st t).2).velocity = getVelocity ops data t := rfl

theorem simTick_clickedWindow (ops : TransOps) (seg : VideoSegment)
    (data : List MousePosition) (W H : ℚ) (st : SimPhys × SimInteraction) (t : ℚ) :
    ((simTick ops seg data W H st t).2).clickedWindow = checkClick data t (1/2) := rfl

theorem simTick_kfWeight (ops : TransOps) (seg : VideoSegment)
    (data : List MousePosition) (W H : ℚ) (st : SimPhys × SimInteraction) (t : ℚ) :
    ((simTick ops seg data W H st t).2).kfWeight =
      (tickKfInfluence ops seg t).weight := rfl

theorem simTick_futureX (ops : TransOps) (seg : VideoSegment)
    (data : List MousePosition) (W H : ℚ) (st : SimPhys × SimInteraction) (t : ℚ) :
    ((simTick ops seg data W H st t).2).futureX = (sample data (t + 1/5)).1 := rfl

theorem simTick_futureY (ops : TransOps) (seg : VideoSegment)
    (data : List MousePosition) (W H : ℚ) (st : SimPhys × SimInteraction) (t : ℚ) :
    ((simTick ops seg data W H st t).2).futureY = (sample data (t + 1/5)).2 := rfl

theorem tickTargetZoom_of_fast {ops : TransOps} {seg : VideoSegment}
    {data : List MousePosition} (W H : ℚ) {hover t : ℚ}
    (hv : 1000 ≤ getVelocity ops data t)
    (hc : checkClick data t (1/2) = false)
    (hh : hover ≤ 2)
    (hk : (tickKfInfluence ops seg t).weight ≤ 0) :
    tickTargetZoom ops seg data W H hover t = 1 := by
  have hsf : min 1 (getVelocity ops data t / 1000) = 1 :=
    min_eq_left ((le_div_iff₀ (by norm_num : (0:ℚ) < 1000)).mpr (by linarith))
  simp only [tickTargetZoom, hsf, hc, Bool.false_eq_true, if_false,
    if_neg (not_lt.mpr hh), if_neg (not_lt.mpr hk)]
  have hz1 : (7:ℚ)/5 * (1 - 1) + 1 * 1 = 1 := by norm_num
  rw [hz1]
  split_ifs <;> simp

theorem tickTargetZoom_click_floor {ops : TransOps} {seg : VideoSegment}
    {data : List MousePosition} {W H : ℚ} (hover : ℚ) {t : ℚ}
    (hc : checkClick data t (1/2) = true)
    (hkf : seg.zoomKeyframes = [])
    (hex : 200 ≤ min (sample data (t + 1/5)).1 (W - (sample data (t + 1/5)).1))
    (hey : 200 ≤ min (sample data (t + 1/5)).2 (H - (sample data (t + 1/5)).2)) :
    17/10 ≤ tickTargetZoom ops seg data W H hover t := by
  simp only [tickTargetZoom, tickKfInfluence, hkf, if_pos rfl, hc, if_true]
  rw [if_neg (by norm_num : ¬((0:ℚ) < 0)), if_neg (by push_neg; exact ⟨hex, hey⟩ : ¬_)]
  split_ifs with hh
  · norm_num
  · exact le_max_right _ _

theorem length_insertByTimestamp (p : MousePosition) :
    ∀ l : List MousePosition, (insertByTimestamp p l).length = l.length + 1
  | [] => rfl
  | q :: l => by
    simp only [insertByTimestamp]
    split_ifs
    · rfl
    · simp [length_insertByTimestamp p l]

theorem length_sortByTimestamp (l : List MousePosition) :
    (sortByTimestamp l).length = l.length := by
  induction l with
  | nil => rfl
  | cons a l ih =>
    unfold sortByTimestamp at ih ⊢
    simp only [List.foldr_cons, length_insertByTimestamp, ih, List.length_cons]

theorem ratExt {a b : ℚ} (hn : a.num = b.num) (hd : a.den = b.den) : a = b := by
  cases a
  cases b
  simp only at hn hd
  subst hn
  subst hd
  rfl

theorem getD_mem {α : Type} {l : List α} {n : ℕ} (h : n < l.length) (d : α) :
    l.getD n d ∈ l := by
  rw [List.getD_eq_getElem l d h]
  exact List.getElem_mem h

theorem resolveSequence_irrelevant (ops : TransOps) (seg : VideoSegment) (vw vh : ℚ) :
    ∀ (ts : List ℚ) (r1 r2 : RendererState),
      resolveSequence ops seg vw vh ts r1 = resolveSequence ops seg vw vh ts r2
  | [], _, _ => rfl
  | _ :: _, _, _ => rfl

theorem resolveByKeyframes_eq_spec (t : ℚ) (kfs : List ZoomKeyframe) :
    resolveByKeyframes t kfs = resolveByKeyframesSpec t kfs := by
  unfold resolveByKeyframes resolveByKeyframesSpec
  cases h : sortKeyframesByTime kfs with
  | nil => simp
  | cons a l => simp

theorem evenize_even (n : ℤ) : evenize n % 2 = 0 := by
  unfold evenize
  split_ifs with h <;> omega

theorem length_gaussPass (ops : TransOps) (w : ℕ) (l : List MousePosition) :
    (gaussPass ops w l).length = l.length := by
  simp [gaussPass]

theorem length_gaussIter (ops : TransOps) (w : ℕ) :
    ∀ (n : ℕ) (l : List MousePosition), ((gaussPass ops w)^[n] l).length = l.length
  | 0, _ => rfl
  | n + 1, l => by
    rw [Function.iterate_succ_apply, length_gaussIter ops w n, length_gaussPass]

theorem length_deadbandGo (ops : TransOps) (th : ℚ) :
    ∀ (l : List MousePosition) (last : MousePosition),
      (deadbandGo ops th last l).length = l.length
  | [], _ => rfl
  | c :: rest, last => by
    simp only [deadbandGo]
    split_ifs <;> simp [length_deadbandGo ops th rest]

theorem length_deadband (ops : TransOps) (w : ℕ) (l : List MousePosition) :
    (deadband ops w l).length = l.length := by
  cases l with
  | nil => rfl
  | cons h rest => simp [deadband, length_deadbandGo]

theorem resampleCR_uniform :
    ∀ ps : List MousePosition,
      List.Chain' (fun a b => b.timestamp = a.timestamp + 1/120) ps →
      (∀ p ∈ ps, p.isClicked = false) →
      resampleCR ps = ((ps.drop 1).dropLast).dropLast
  | [], _, _ => rfl
  | [_], _, _ => rfl
  | [_, _], _, _ => rfl
  | [_, _, _], _, _ => rfl
  | p0 :: p1 :: p2 :: p3 :: rest, hch, hcl => by
    have h12 : p2.timestamp = p1.timestamp + 1/120 :=
      (List.chain'_cons.mp (List.chain'_cons.mp hch).2).1
    have hc1 : p1.isClicked = false := hcl p1 (by simp)
    have hc2 : p2.isClicked = false := hcl p2 (by simp)
    have ih := resampleCR_uniform (p1 :: p2 :: p3 :: rest)
      (List.chain'_cons.mp hch).2 (fun p hp => hcl p (List.mem_cons_of_mem _ hp))
    simp only [resampleCR] at ih ⊢
    rw [ih]
    have hd : p2.timestamp - p1.timestamp = 1/120 := by rw [h12]; ring
    rw [hd]
    have hn : ((⌈(1/120 : ℚ) * 120⌉).toNat) = 1 := by norm_num
    rw [hn]
    have hone : List.range 1 = [0] := rfl
    rw [hone]
    obtain ⟨pt, px, py, pc, pk⟩ := p1
    simp only at hc1
    subst hc1
    simp only [List.map_cons, List.map_nil, Nat.cast_zero, hc2, CharP.cast_eq_zero]
    norm_num [catmullRom, List.dropLast_cons₂]
    constructor <;> ring

theorem resampleCR_length_uniform {ps : List MousePosition}
    (hch : List.Chain' (fun a b => b.timestamp = a.timestamp + 1/120) ps)
    (hcl : ∀ p ∈ ps, p.isClicked = false) :
    (resampleCR ps).length = ps.length - 3 := by
  rw [resampleCR_uniform ps hch hcl]
  simp only [List.length_dropLast, List.length_drop]
  omega

/-! ## Claim theorems -/

/-- C1 (counterexample): the claim fails as stated on two one-tick runs.  In
the first, a manual keyframe with `zoomFactor 2000` pinned at the tick makes
the recorded zoom `2.542`, above the generator's `MAX_ZOOM = 2` (only the
absolute safety clamp at 5 applies).  In the second, a static pointer 250 px
from the left edge makes the position clamp bind at `x = 1000/zoom` with zoom
`3241/3240`; after `toFixed(1)`/`toFixed(3)` rounding the recorded entry is
`(x, zoom) = (999.7, 1.0)` and the viewport `[x - 2000/zoom/2, x + 2000/zoom/2]`
sticks 0.3 px out of the left frame edge, so the viewport constraint does not
hold for the rounded path entries. -/
theorem C1_counterexample :
    (generateMotionPath exactOps segOneTickKf dataStatic1000 2000 2000 =
        [⟨0, 1000, 1000, 1271/500⟩] ∧ ¬((1271 : ℚ)/500 ≤ 2)) ∧
    ((generateMotionPath exactOps segOneTickPlain dataNearEdge 2000 2000).length = 1 ∧
      ((generateMotionPath exactOps segOneTickPlain dataNearEdge 2000 2000).getD 0
          ppDefault).x = 9997/10 ∧
      ((generateMotionPath exactOps segOneTickPlain dataNearEdge 2000 2000).getD 0
          ppDefault).zoom = 1 ∧
      (9997 : ℚ)/10 - 2000 / 1 / 2 < 0) :=
  ⟨⟨of_decide_eq_true (by with_unfolding_all rfl),
    of_decide_eq_true (by with_unfolding_all rfl)⟩,
   of_decide_eq_true (by with_unfolding_all rfl),
   ratExt (of_decide_eq_true (by with_unfolding_all rfl))
     (of_decide_eq_true (by with_unfolding_all rfl)),
   of_decide_eq_true (by with_unfolding_all rfl),
   of_decide_eq_true (by with_unfolding_all rfl)⟩

/-- C1 (amended): for every tick record of `generateMotionPath` (any segment,
telemetry, positive dimensions, and any interpretation of the transcendental
functions), the recorded entry's zoom lies within the absolute safety bounds
`[1, 5]` (not `MAX_ZOOM = 2`), and the viewport constraint holds for the
unrounded clamped camera center evaluated at the zoom the clamps actually
used (the pre-safety-clamp zoom), whenever that zoom is at least 1: position
is clamped, zoom is not. -/
theorem C1_amended (ops : TransOps) (seg : VideoSegment) (mps : List MousePosition)
    (W H : ℚ) (hW : 0 < W) (hH : 0 < H) :
    ∀ r ∈ generateMotionPathAux ops seg mps W H,
      (1 ≤ r.entry.zoom ∧ r.entry.zoom ≤ 5) ∧
      (1 ≤ r.preClampZoom →
        (0 ≤ r.stateX - W / r.preClampZoom / 2 ∧ r.stateX + W / r.preClampZoom / 2 ≤ W) ∧
        (0 ≤ r.stateY - H / r.preClampZoom / 2 ∧ r.stateY + H / r.preClampZoom / 2 ≤ H)) := by
  intro r hr
  obtain ⟨st, t, rfl⟩ := mem_generateMotionPathAux hr
  constructor
  · rw [simTick_entry_zoom]
    obtain ⟨hb1, hb2⟩ := applyHC_zoom_bounds W H
      (tickIntegrated ops seg (filterAndSort seg mps) W H st t)
    exact ⟨one_le_toFixed3 hb1, toFixed3_le_five hb2⟩
  · intro hz
    rw [simTick_preClampZoom] at hz
    rw [simTick_preClampZoom, simTick_stateX, simTick_stateY]
    exact ⟨applyHC_viewport_x H hW hz, applyHC_viewport_y W hH hz⟩

/-- Witness for C1 (amended) at the one-tick keyframe run. -/
theorem C1_witness :
    (0:ℚ) < 2000 ∧
    (generateMotionPathAux exactOps segOneTickKf dataStatic1000 2000 2000).getD 0 trDefault
      ∈ generateMotionPathAux exactOps segOneTickKf dataStatic1000 2000 2000 ∧
    ((1 ≤ ((generateMotionPathAux exactOps segOneTickKf dataStatic1000 2000 2000).getD 0
          trDefault).entry.zoom ∧
      ((generateMotionPathAux exactOps segOneTickKf dataStatic1000 2000 2000).getD 0
          trDefault).entry.zoom ≤ 5) ∧
      (1 ≤ ((generateMotionPathAux exactOps segOneTickKf dataStatic1000 2000 2000).getD 0
          trDefault).preClampZoom →
        (0 ≤ ((generateMotionPathAux exactOps segOneTickKf dataStatic1000 2000 2000).getD 0
            trDefault).stateX -
          2000 / ((generateMotionPathAux exactOps segOneTickKf dataStatic1000 2000
            2000).getD 0 trDefault).preClampZoom / 2 ∧
          ((generateMotionPathAux exactOps segOneTickKf dataStatic1000 2000 2000).getD 0
            trDefault).stateX +
          2000 / ((generateMotionPathAux exactOps segOneTickKf dataStatic1000 2000
            2000).getD 0 trDefault).preClampZoom / 2 ≤ 2000) ∧
        (0 ≤ ((generateMotionPathAux exactOps segOneTickKf dataStatic1000 2000 2000).getD 0
            trDefault).stateY -
          2000 / ((generateMotionPathAux exactOps segOneTickKf dataStatic1000 2000
            2000).getD 0 trDefault).preClampZoom / 2 ∧
          ((generateMotionPathAux exactOps segOneTickKf dataStatic1000 2000 2000).getD 0
            trDefault).stateY +
          2000 / ((generateMotionPathAux exactOps segOneTickKf dataStatic1000 2000
            2000).getD 0 trDefault).preClampZoom / 2 ≤ 2000))) := by
  have hlen : 0 < (generateMotionPathAux exactOps segOneTickKf dataStatic1000 2000 2000).length := by
    have : (generateMotionPathAux exactOps segOneTickKf dataStatic1000 2000 2000).length = 1 :=
      of_decide_eq_true (by with_unfolding_all rfl)
    omega
  have hm := getD_mem hlen trDefault
  exact ⟨by norm_num, hm,
    C1_amended exactOps segOneTickKf dataStatic1000 2000 2000 (by norm_num) (by norm_num)
      _ hm⟩

/-- C2: the resolved camera state is a function of the call's arguments alone.
`calculateCurrentZoomStateInternal` reads none of the renderer's mutable state
(it only writes `lastCalculatedState`), so a single resolution, and therefore
the whole per-frame sequence an export resolves over its virtual timeline, is
identical across runs started from any two renderer states; and
`generateMotionPath` is a pure function of its arguments.  Two exports of the
same segment hence resolve the same camera state at every virtual timestamp. -/
theorem C2_determinism (ops : TransOps) (seg : VideoSegment) (vw vh speed : ℚ)
    (r1 r2 : RendererState) (t : ℚ) (seg2 : VideoSegment) (mps : List MousePosition)
    (W H : ℚ) :
    (calculateCurrentZoomState ops r1 t seg vw vh).1 =
      (calculateCurrentZoomState ops r2 t seg vw vh).1 ∧
    exportResolvedStates ops r1 seg vw vh speed =
      exportResolvedStates ops r2 seg vw vh speed ∧
    generateMotionPath ops seg2 mps W H = generateMotionPath ops seg2 mps W H :=
  ⟨rfl, resolveSequence_irrelevant ops seg vw vh _ r1 r2, rfl⟩

/-- C3: a second `exportAndDownload` while `isExporting` is set throws
`Export already in progress` before any side effect: the exporter state is
returned unchanged (the in-flight export's flags are untouched) and the
effect trace is empty — no video element is created and no sink call is
issued. -/
theorem C3_reject_inflight (s : ExporterState) (opts : ExportOptions)
    (h : s.isExporting = true) :
    exportAndDownload s opts = ⟨s, [], some .alreadyInProgress⟩ := by
  simp [exportAndDownload, h]

/-- Witness for C3 at a concrete in-flight state. -/
theorem C3_witness :
    (⟨true, false⟩ : ExporterState).isExporting = true ∧
    exportAndDownload ⟨true, false⟩ optsExport =
      ⟨⟨true, false⟩, [], some .alreadyInProgress⟩ :=
  ⟨rfl, C3_reject_inflight ⟨true, false⟩ optsExport rfl⟩

/-- C4 (counterexample): a tick whose measured velocity is exactly the
`MAX_VELOCITY_ZOOM_PENALTY` ceiling (1000 px/s) but whose window contains a
click gets target zoom `1.7`, not `MIN_ZOOM = 1`: the click-focus rule runs
after — and overrides — the velocity penalty, so the velocity rule is not
independent of the other rules. -/
theorem C4_counterexample :
    0 < (generateMotionPathAux exactOps segHalfTick dataClickMove 2000 2000).length ∧
    ((generateMotionPathAux exactOps segHalfTick dataClickMove 2000 2000).getD 0
        trDefault) ∈ generateMotionPathAux exactOps segHalfTick dataClickMove 2000 2000 ∧
    ((generateMotionPathAux exactOps segHalfTick dataClickMove 2000 2000).getD 0
        trDefault).velocity = 1000 ∧
    ((generateMotionPathAux exactOps segHalfTick dataClickMove 2000 2000).getD 0
        trDefault).targetZoom = 17/10 ∧
    ¬((17 : ℚ)/10 = 1) := by
  have hlen : 0 < (generateMotionPathAux exactOps segHalfTick dataClickMove 2000 2000).length := by
    have h1 : (generateMotionPathAux exactOps segHalfTick dataClickMove 2000 2000).length = 1 :=
      of_decide_eq_true (by with_unfolding_all rfl)
    omega
  exact ⟨hlen, getD_mem hlen trDefault,
    ratExt (of_decide_eq_true (by with_unfolding_all rfl))
      (of_decide_eq_true (by with_unfolding_all rfl)),
    of_decide_eq_true (by with_unfolding_all rfl),
    of_decide_eq_true (by with_unfolding_all rfl)⟩

/-- C4 (amended): at or above the velocity ceiling the velocity rule alone
drives the target to `MIN_ZOOM = 1`, and the tick's final target zoom equals
`MIN_ZOOM` provided none of the overriding rules fires: no click falls in the
tick's half-second window, the accumulated hover time is at most the 2 s dwell
threshold, and no manual keyframe influence applies (the edge pull-back can
never raise it).  With a click, dwell, or keyframe influence the target can be
raised despite the velocity. -/
theorem C4_amended (ops : TransOps) (seg : VideoSegment) (mps : List MousePosition)
    (W H : ℚ) :
    ∀ r ∈ generateMotionPathAux ops seg mps W H,
      1000 ≤ r.velocity → r.clickedWindow = false → r.hoverAfter ≤ 2 →
      r.kfWeight ≤ 0 → r.targetZoom = 1 := by
  intro r hr hv hc hh hk
  obtain ⟨st, t, rfl⟩ := mem_generateMotionPathAux hr
  rw [simTick_velocity] at hv
  rw [simTick_clickedWindow] at hc
  rw [simTick_hoverAfter] at hh
  rw [simTick_kfWeight] at hk
  rw [simTick_targetZoom]
  exact tickTargetZoom_of_fast W H hv hc hh hk

/-- Witness for C4 (amended): a one-tick run moving at exactly 1000 px/s with
no click, no dwell, and no keyframes resolves target zoom 1. -/
theorem C4_witness :
    ((generateMotionPathAux exactOps segHalfTick dataFastMove 2000 1000).getD 0 trDefault)
      ∈ generateMotionPathAux exactOps segHalfTick dataFastMove 2000 1000 ∧
    1000 ≤ ((generateMotionPathAux exactOps segHalfTick dataFastMove 2000 1000).getD 0
      trDefault).velocity ∧
    ((generateMotionPathAux exactOps segHalfTick dataFastMove 2000 1000).getD 0
      trDefault).clickedWindow = false ∧
    ((generateMotionPathAux exactOps segHalfTick dataFastMove 2000 1000).getD 0
      trDefault).hoverAfter ≤ 2 ∧
    ((generateMotionPathAux exactOps segHalfTick dataFastMove 2000 1000).getD 0
      trDefault).kfWeight ≤ 0 ∧
    ((generateMotionPathAux exactOps segHalfTick dataFastMove 2000 1000).getD 0
      trDefault).targetZoom = 1 := by
  have hlen : 0 < (generateMotionPathAux exactOps segHalfTick dataFastMove 2000 1000).length := by
    have h1 : (generateMotionPathAux exactOps segHalfTick dataFastMove 2000 1000).length = 1 :=
      of_decide_eq_true (by with_unfolding_all rfl)
    omega
  have hm := getD_mem hlen trDefault
  have hv : 1000 ≤ ((generateMotionPathAux exactOps segHalfTick dataFastMove 2000 1000).getD 0
      trDefault).velocity := of_decide_eq_true (by with_unfolding_all rfl)
  have hc : ((generateMotionPathAux exactOps segHalfTick dataFastMove 2000 1000).getD 0
      trDefault).clickedWindow = false := of_decide_eq_true (by with_unfolding_all rfl)
  have hh : ((generateMotionPathAux exactOps segHalfTick dataFastMove 2000 1000).getD 0
      trDefault).hoverAfter ≤ 2 := of_decide_eq_true (by with_unfolding_all rfl)
  have hk : ((generateMotionPathAux exactOps segHalfTick dataFastMove 2000 1000).getD 0
      trDefault).kfWeight ≤ 0 := of_decide_eq_true (by with_unfolding_all rfl)
  exact ⟨hm, hv, hc, hh, hk,
    C4_amended exactOps segHalfTick dataFastMove 2000 1000 _ hm hv hc hh hk⟩

/-- C5 (counterexample): in the scenario itself — segment `[0, 2]`, telemetry
static at the center except for a single click at `t = 1`, no keyframes, base
zoom `1.4 < 1.7` — the generated path's zoom at `t = 1.0` is `1.252`, and in
fact stays below `1.7` at every tick: the click floors only the per-tick
*target* zoom at 1.7, and the sluggish spring (tension 25, friction 25, zoom
mass 9) cannot reach it within the half-second click window. -/
theorem C5_counterexample :
    (∀ p ∈ generateMotionPath exactOps segClickWindow dataSingleClick 2000 2000,
      p.zoom < 17/10) ∧
    (generateMotionPath exactOps segClickWindow dataSingleClick 2000 2000).length = 121 ∧
    ((generateMotionPath exactOps segClickWindow dataSingleClick 2000 2000).getD 60
        ppDefault).time = 1 ∧
    ((generateMotionPath exactOps segClickWindow dataSingleClick 2000 2000).getD 60
        ppDefault).zoom = 313/250 ∧
    ((313 : ℚ)/250 < 17/10) :=
  of_decide_eq_true (by with_unfolding_all rfl)

/-- C5 (amended): at every simulation tick whose half-second window contains a
click, in a segment without keyframes and with the look-ahead target at least
the 200 px edge margin away from every frame edge, the *target* zoom of that
tick is at least 1.7 (the click floors it there; dwell can only raise it
further); the spring-tracked path zoom itself need not reach 1.7. -/
theorem C5_amended (ops : TransOps) (seg : VideoSegment) (mps : List MousePosition)
    (W H : ℚ) :
    ∀ r ∈ generateMotionPathAux ops seg mps W H,
      r.clickedWindow = true → seg.zoomKeyframes = [] →
      200 ≤ min r.futureX (W - r.futureX) → 200 ≤ min r.futureY (H - r.futureY) →
      17/10 ≤ r.targetZoom := by
  intro r hr hc hkf hex hey
  obtain ⟨st, t, rfl⟩ := mem_generateMotionPathAux hr
  rw [simTick_clickedWindow] at hc
  rw [simTick_futureX] at hex
  rw [simTick_futureY] at hey
  rw [simTick_targetZoom]
  exact tickTargetZoom_click_floor _ hc hkf hex hey

/-- Witness for C5 (amended): a one-tick run at `t = 1` inside the click
window of `dataSingleClick` resolves a target zoom of at least 1.7. -/
theorem C5_witness :
    ((generateMotionPathAux exactOps segClickAtOne dataSingleClick 2000 2000).getD 0 trDefault)
      ∈ generateMotionPathAux exactOps segClickAtOne dataSingleClick 2000 2000 ∧
    ((generateMotionPathAux exactOps segClickAtOne dataSingleClick 2000 2000).getD 0
      trDefault).clickedWindow = true ∧
    segClickAtOne.zoomKeyframes = [] ∧
    200 ≤ min ((generateMotionPathAux exactOps segClickAtOne dataSingleClick 2000 2000).getD 0
        trDefault).futureX
      (2000 - ((generateMotionPathAux exactOps segClickAtOne dataSingleClick 2000 2000).getD 0
        trDefault).futureX) ∧
    200 ≤ min ((generateMotionPathAux exactOps segClickAtOne dataSingleClick 2000 2000).getD 0
        trDefault).futureY
      (2000 - ((generateMotionPathAux exactOps segClickAtOne dataSingleClick 2000 2000).getD 0
        trDefault).futureY) ∧
    17/10 ≤ ((generateMotionPathAux exactOps segClickAtOne dataSingleClick 2000 2000).getD 0
      trDefault).targetZoom := by
  have hlen : 0 < (generateMotionPathAux exactOps segClickAtOne dataSingleClick 2000 2000).length := by
    have h1 : (generateMotionPathAux exactOps segClickAtOne dataSingleClick 2000 2000).length = 1 :=
      of_decide_eq_true (by with_unfolding_all rfl)
    omega
  have hm := getD_mem hlen trDefault
  have hc : ((generateMotionPathAux exactOps segClickAtOne dataSingleClick 2000 2000).getD 0
      trDefault).clickedWindow = true := of_decide_eq_true (by with_unfolding_all rfl)
  have hex : 200 ≤ min ((generateMotionPathAux exactOps segClickAtOne dataSingleClick 2000
        2000).getD 0 trDefault).futureX
      (2000 - ((generateMotionPathAux exactOps segClickAtOne dataSingleClick 2000 2000).getD 0
        trDefault).futureX) := of_decide_eq_true (by with_unfolding_all rfl)
  have hey : 200 ≤ min ((generateMotionPathAux exactOps segClickAtOne dataSingleClick 2000
        2000).getD 0 trDefault).futureY
      (2000 - ((generateMotionPathAux exactOps segClickAtOne dataSingleClick 2000 2000).getD 0
        trDefault).futureY) := of_decide_eq_true (by with_unfolding_all rfl)
  exact ⟨hm, hc, rfl, hex, hey,
    C5_amended exactOps segClickAtOne dataSingleClick 2000 2000 _ hm hc rfl hex hey⟩

/-- C6 (counterexample): with no dense path and keyframes at times 0 and 10
(gap 10, far above the 1 s transition threshold), the resolution at
`t = 9.5` is not the previous keyframe held unchanged: the code runs an
approach transition into the next keyframe during the last second before it,
returning zoom `1.875` (cubic-eased blend) while the held previous keyframe
has zoom 1. -/
theorem C6_counterexample :
    segKfFar.smoothMotionPath = [] ∧
    kfEarly.time ≤ 19/2 ∧ (19/2 : ℚ) < kfLate.time ∧ 1 < kfLate.time - kfEarly.time ∧
    calculateCurrentZoomStateInternal exactOps (19/2) segKfFar 1000 1000 =
      ⟨19/2, 1, 15/8, 1/2, 1/2, .easeOut⟩ ∧
    ¬((15 : ℚ)/8 = kfEarly.zoomFactor) :=
  ⟨rfl,
   of_decide_eq_true (by with_unfolding_all rfl),
   of_decide_eq_true (by with_unfolding_all rfl),
   of_decide_eq_true (by with_unfolding_all rfl),
   of_decide_eq_true (by with_unfolding_all rfl),
   of_decide_eq_true (by with_unfolding_all rfl)⟩

/-- C6 (amended): with no dense motion path, the compositor's camera
resolution is exactly the keyframe-fallback specification: ease between the
bracketing keyframes when their gap is at most the transition duration;
otherwise, when the next keyframe lies within the transition duration ahead,
ease from the previous keyframe (or the identity default) into it; otherwise
hold the previous keyframe, or the identity default state when no keyframe
precedes. -/
theorem C6_amended (ops : TransOps) (t : ℚ) (seg : VideoSegment) (vw vh : ℚ)
    (h : seg.smoothMotionPath = []) :
    calculateCurrentZoomStateInternal ops t seg vw vh =
      resolveByKeyframesSpec t seg.zoomKeyframes := by
  simp only [calculateCurrentZoomStateInternal, h, List.isEmpty_nil, if_true]
  exact resolveByKeyframes_eq_spec t seg.zoomKeyframes

/-- Witness for C6 (amended) at the two-keyframe segment. -/
theorem C6_witness :
    segKfFar.smoothMotionPath = [] ∧
    calculateCurrentZoomStateInternal exactOps (19/2) segKfFar 1000 1000 =
      resolveByKeyframesSpec (19/2) segKfFar.zoomKeyframes :=
  ⟨rfl, C6_amended exactOps (19/2) segKfFar 1000 1000 rfl⟩

/-- C7 (counterexample): the exporter of src/unnamed/part_001 (and the second
exporter of videoExporter.ts) negotiates the fixed preset size `1920×1080` for
`'1080p'` regardless of the source: for a square 1000×1000 source the width
derived from the (cropped) aspect ratio would be 1080, not 1920, so the claim
that every export derives the width from the cropped aspect ratio fails. -/
theorem C7_counterexample :
    negotiateDimensionsFixed "1080p" 1000 1000 = (1920, 1080) ∧
    evenize (jsRound ((1080 : ℚ) * ((1000 : ℚ) / (1000 : ℚ)))) = 1080 ∧
    ¬((1920 : ℤ) = 1080) :=
  ⟨of_decide_eq_true (by with_unfolding_all rfl),
   of_decide_eq_true (by with_unfolding_all rfl),
   of_decide_eq_true (by with_unfolding_all rfl)⟩

/-- C7 (amended): only the crop-aware exporter (the first implementation in
videoExporter.ts) derives the `'1080p'` width from the cropped aspect ratio:
it returns height 1080 and width `round(1080·(croppedW/croppedH))` forced
even, both dimensions even, and a source cropped to exactly 16:9 yields
`1920×1080`; the preset-table exporters return the fixed `1920×1080` for this
preset regardless of crop. -/
theorem C7_amended (vidW vidH : ℤ) (crop : CropRect)
    (hch : 0 < jsRound ((vidH : ℚ) * crop.height)) :
    (negotiateDimensionsCropped "1080p" vidW vidH crop).2 = 1080 ∧
    (negotiateDimensionsCropped "1080p" vidW vidH crop).1 =
      evenize (jsRound ((1080 : ℚ) *
        ((jsRound ((vidW : ℚ) * crop.width) : ℚ) /
          (jsRound ((vidH : ℚ) * crop.height) : ℚ)))) ∧
    (negotiateDimensionsCropped "1080p" vidW vidH crop).1 % 2 = 0 ∧
    (negotiateDimensionsCropped "1080p" vidW vidH crop).2 % 2 = 0 ∧
    (jsRound ((vidW : ℚ) * crop.width) * 9 = jsRound ((vidH : ℚ) * crop.height) * 16 →
      negotiateDimensionsCropped "1080p" vidW vidH crop = (1920, 1080)) ∧
    negotiateDimensionsFixed "1080p" vidW vidH = (1920, 1080) := by
  have hpre : dimensionPreset "1080p" = (1920, 1080) := rfl
  refine ⟨?_, ?_, ?_, ?_, ?_, rfl⟩
  · simp [negotiateDimensionsCropped, hpre, evenize]
  · simp [negotiateDimensionsCropped, hpre]
  · exact evenize_even _
  · simp only [negotiateDimensionsCropped, hpre]
    norm_num [evenize]
  · intro h169
    have hne : (jsRound ((vidH : ℚ) * crop.height) : ℚ) ≠ 0 := by
      exact_mod_cast Int.ne_of_gt hch
    have hratio : (jsRound ((vidW : ℚ) * crop.width) : ℚ) /
        (jsRound ((vidH : ℚ) * crop.height) : ℚ) = 16/9 := by
      have h9 : (jsRound ((vidW : ℚ) * crop.width) : ℚ) * 9 =
          (jsRound ((vidH : ℚ) * crop.height) : ℚ) * 16 := by exact_mod_cast h169
      field_simp
      linarith
    have hjr : jsRound ((((1080 : ℤ) : ℚ)) * (16/9)) = 1920 := by norm_num [jsRound]
    have hev : evenize (1920 : ℤ) = 1920 := by norm_num [evenize]
    have hev2 : evenize (1080 : ℤ) = 1080 := by norm_num [evenize]
    simp only [negotiateDimensionsCropped, hpre, hratio,
      if_neg (show ¬(1080 : ℤ) = 0 by norm_num), hjr, hev, hev2]

/-- Witness for C7 (amended) at a full-frame 1920×1080 source (16:9). -/
theorem C7_witness :
    0 < jsRound ((1080 : ℚ) * crop0.height) ∧
    ((negotiateDimensionsCropped "1080p" 1920 1080 crop0).2 = 1080 ∧
      (negotiateDimensionsCropped "1080p" 1920 1080 crop0).1 =
        evenize (jsRound ((1080 : ℚ) *
          ((jsRound ((1920 : ℚ) * crop0.width) : ℚ) /
            (jsRound ((1080 : ℚ) * crop0.height) : ℚ)))) ∧
      (negotiateDimensionsCropped "1080p" 1920 1080 crop0).1 % 2 = 0 ∧
      (negotiateDimensionsCropped "1080p" 1920 1080 crop0).2 % 2 = 0 ∧
      (jsRound ((1920 : ℚ) * crop0.width) * 9 = jsRound ((1080 : ℚ) * crop0.height) * 16 →
        negotiateDimensionsCropped "1080p" 1920 1080 crop0 = (1920, 1080)) ∧
      negotiateDimensionsFixed "1080p" 1920 1080 = (1920, 1080)) :=
  ⟨of_decide_eq_true (by with_unfolding_all rfl),
   C7_amended 1920 1080 crop0 (of_decide_eq_true (by with_unfolding_all rfl))⟩

/-- C8 (counterexample): on a perfectly linear trace of 5 samples spaced
exactly at the smoother's 120 fps target rate with no clicks, the smoother
returns a 2-sample trace, not the input: the Catmull–Rom resampling stage
emits one sample per 4-point window and therefore drops the first input
sample and the last two, so the output cannot equal the input within any
tolerance (the lengths differ regardless of the Gaussian weight values). -/
theorem C8_counterexample :
    (smoothMousePositions exactOps 5 denseLine).length = 2 ∧
    denseLine.length = 5 ∧
    smoothMousePositions exactOps 5 denseLine ≠ denseLine :=
  ⟨of_decide_eq_true (by with_unfolding_all rfl),
   of_decide_eq_true (by with_unfolding_all rfl),
   of_decide_eq_true (by with_unfolding_all rfl)⟩

/-- C8 (amended): on an already-dense, click-free trace sampled exactly at the
120 fps target rate, the Catmull–Rom resampling stage reproduces the input
samples exactly but restricted to the interior — it drops the first sample and
the last two — and the subsequent Gaussian and deadband passes preserve
length, so the smoother's output has exactly `length - 3` samples; the
smoother is not the identity on such input. -/
theorem C8_amended (ops : TransOps) (smoothness : ℕ) (ps : List MousePosition)
    (hch : List.Chain' (fun a b => b.timestamp = a.timestamp + 1/120) ps)
    (hcl : ∀ p ∈ ps, p.isClicked = false) :
    resampleCR ps = ((ps.drop 1).dropLast).dropLast ∧
    (4 ≤ ps.length → (smoothMousePositions ops smoothness ps).length = ps.length - 3) := by
  refine ⟨resampleCR_uniform ps hch hcl, fun h4 => ?_⟩
  unfold smoothMousePositions
  rw [if_neg (by omega)]
  rw [length_deadband, length_gaussIter, resampleCR_length_uniform hch hcl]

/-- Witness for C8 (amended) at the 5-sample 120 fps linear trace. -/
theorem C8_witness :
    List.Chain' (fun a b => b.timestamp = a.timestamp + 1/120) denseLine ∧
    (∀ p ∈ denseLine, p.isClicked = false) ∧
    4 ≤ denseLine.length ∧
    (resampleCR denseLine = ((denseLine.drop 1).dropLast).dropLast ∧
      (smoothMousePositions exactOps 5 denseLine).length = denseLine.length - 3) := by
  have hch : List.Chain' (fun a b => b.timestamp = a.timestamp + 1/120) denseLine := by
    simp only [denseLine, List.chain'_cons, List.chain'_singleton]
    norm_num
  have hcl : ∀ p ∈ denseLine, p.isClicked = false :=
    of_decide_eq_true (by with_unfolding_all rfl)
  have h4 : 4 ≤ denseLine.length := of_decide_eq_true (by with_unfolding_all rfl)
  obtain ⟨h1, h2⟩ := C8_amended exactOps 5 denseLine hch hcl
  exact ⟨hch, hcl, h4, h1, h2 h4⟩

/-- C9: with fewer than 2 samples inside the trim range padded by one second,
`generateMotionPath` returns the empty path (the guard
`if (data.length < 2) return []` fires before the simulation or the telemetry
sampler ever run), so motion generation is disabled rather than crashing. -/
theorem C9_few_samples (ops : TransOps) (seg : VideoSegment) (mps : List MousePosition)
    (W H : ℚ)
    (h : (mps.filter fun p =>
        decide (seg.trimStart - 1 ≤ p.timestamp)
          && decide (p.timestamp ≤ seg.trimEnd + 1)).length < 2) :
    generateMotionPath ops seg mps W H = [] := by
  have hfs : (filterAndSort seg mps).length < 2 := by
    rw [filterAndSort, length_sortByTimestamp]
    exact h
  unfold generateMotionPath generateMotionPathAux
  rw [if_pos hfs]
  rfl

/-- Witness for C9: a single sample outside the padded range. -/
theorem C9_witness :
    (dataFar.filter fun p =>
        decide (segShort.trimStart - 1 ≤ p.timestamp)
          && decide (p.timestamp ≤ segShort.trimEnd + 1)).length < 2 ∧
    generateMotionPath exactOps segShort dataFar 2000 2000 = [] := by
  have h : (dataFar.filter fun p =>
      decide (segShort.trimStart - 1 ≤ p.timestamp)
        && decide (p.timestamp ≤ segShort.trimEnd + 1)).length < 2 :=
    of_decide_eq_true (by with_unfolding_all rfl)
  exact ⟨h, C9_few_samples exactOps segShort dataFar 2000 2000 h⟩

/-- C10: `smoothMousePositions` returns its input unchanged whenever the input
holds fewer than 4 samples — the guard `if (positions.length < 4) return
positions` fires before resampling, Gaussian averaging, or deadband collapse. -/
theorem C10_short_input (ops : TransOps) (smoothness : ℕ) (ps : List MousePosition)
    (h : ps.length < 4) :
    smoothMousePositions ops smoothness ps = ps := by
  unfold smoothMousePositions
  rw [if_pos h]

/-- Witness for C10 at a two-sample trace. -/
theorem C10_witness :
    shortTrace.length < 4 ∧ smoothMousePositions exactOps 5 shortTrace = shortTrace :=
  ⟨of_decide_eq_true (by with_unfolding_all rfl),
   C10_short_input exactOps 5 shortTrace (of_decide_eq_true (by with_unfolding_all rfl))⟩

end SGT
